import Mathlib

/-!
Shallow embedding of the agent-mediation core of the `master-of-tg-ads`
repository: the broker (`MCPServer.py`), its retry and cache policies, the
`BaseAgent` template-method lifecycle (`agents/base_agent.py`), the four
concrete agents, and the four-stage advertising pipeline
(`ai_assistant/src/ai_assistant.py`).  Python exceptions are modelled as
values of an error type carried in `Except`; Python dictionaries are
modelled as insertion-ordered association lists; mutation is modelled by
explicit state passing.
-/

/-- Python exception values raised by the embedded code.  `MCPError`
subclasses from `MCPServer.py` (`ToolNotFoundError`, `SecurityError`),
`AgentError` from `agents/base_agent.py`, Python built-ins `ValueError`,
`KeyError`, `AttributeError`, `TypeError`, and a catch-all for opaque
exceptions raised by external collaborators. -/
inductive PyErr where
  | toolNotFoundError (msg : String)
  | securityError (msg : String)
  | agentError (msg : String)
  | valueError (msg : String)
  | keyError (msg : String)
  | attributeError (msg : String)
  | typeError (msg : String)
  | otherError (msg : String)
deriving DecidableEq, Repr

/-- Python values stored in the shared pipeline context and in tool-result
dictionaries.  The repository only ever stores strings, booleans, integers,
lists of strings (QA issue lists), and `None` at the places the claims
touch. -/
inductive Value where
  | vNone
  | vBool (b : Bool)
  | vInt (n : Int)
  | vStr (s : String)
  | vStrList (l : List String)
deriving DecidableEq, Repr

/-- Python dict with string keys, as an insertion-ordered association list. -/
abbrev Ctx := List (String × Value)

/-- Lookup in a string-keyed association list (first binding wins; `alistSet`
keeps keys unique). -/
def alistGet {α : Type} (d : List (String × α)) (k : String) : Option α :=
  (d.find? (fun kv => kv.1 == k)).map (fun kv => kv.2)

/-- Python dict assignment `d[k] = v`: overwrite in place if the key exists,
otherwise append (Python dicts preserve insertion order). -/
def alistSet {α : Type} (d : List (String × α)) (k : String) (v : α) :
    List (String × α) :=
  if d.any (fun kv => kv.1 == k) then
    d.map (fun kv => if kv.1 == k then (k, v) else kv)
  else
    d ++ [(k, v)]

/-- Python `k in d` membership test on a dict. -/
def pyHasKey (d : Ctx) (k : String) : Bool :=
  d.any (fun kv => kv.1 == k)

/-- Python `d.get(k, default)`. -/
def pyGetD (d : Ctx) (k : String) (v : Value) : Value :=
  (alistGet d k).getD v

/-- Python truthiness of the modelled values (`if x:`). -/
def pyTruthy : Value → Bool
  | Value.vNone => false
  | Value.vBool b => b
  | Value.vInt n => n != 0
  | Value.vStr s => !s.isEmpty
  | Value.vStrList l => !l.isEmpty

/-- Python `len(x)` on a modelled value; `none` models the `TypeError`
raised when the value has no length (int, bool, None). -/
def pyLen : Value → Option Nat
  | Value.vStr s => some s.length
  | Value.vStrList l => some l.length
  | _ => none

/-- Lowercasing of one character as Python `str.lower` performs it,
restricted to the ASCII and Russian alphabets that occur in the
repository's rule keywords. -/
def pyLowerChar (c : Char) : Char :=
  if 0x41 ≤ c.toNat ∧ c.toNat ≤ 0x5A then Char.ofNat (c.toNat + 32)
  else if 0x410 ≤ c.toNat ∧ c.toNat ≤ 0x42F then Char.ofNat (c.toNat + 32)
  else if c.toNat = 0x401 then Char.ofNat 0x451
  else c

/-- Python `s.lower()` for the alphabets used by the compliance rules. -/
def pyLower (s : String) : String := String.mk (s.data.map pyLowerChar)

/-- Test that one character list starts with another. -/
def charListPre : List Char → List Char → Bool
  | [], _ => true
  | _ :: _, [] => false
  | a :: as, b :: bs => a = b && charListPre as bs

/-- Test that `needle` occurs as a contiguous run inside the second list. -/
def charListSub (needle : List Char) : List Char → Bool
  | [] => charListPre needle []
  | c :: rest => charListPre needle (c :: rest) || charListSub needle rest

/-- Python substring test `needle in hay`. -/
def strContains (hay needle : String) : Bool := charListSub needle.data hay.data

/-- Comma-separated body of Python `str` applied to a list of strings. -/
def pyStrListCore : List String → String
  | [] => ""
  | [s] => "\x27" ++ s ++ "\x27"
  | s :: rest => "\x27" ++ s ++ "\x27" ++ ", " ++ pyStrListCore rest

/-- Rendering of a Python list of strings as `str` renders it, used by the
f-string error messages that interpolate a `missing` list. -/
def pyStrList (l : List String) : String := "[" ++ pyStrListCore l ++ "]"

/-! ## InMemoryCachePolicy (`MCPServer.py` lines 103-113) -/

/-- State of `InMemoryCachePolicy`: the `self._store` dict. -/
structure InMemoryCachePolicy where
  store : List (String × Value)
deriving DecidableEq, Repr

/-- Fresh policy: `__init__` sets `self._store = {}`. -/
def InMemoryCachePolicy.init : InMemoryCachePolicy := ⟨[]⟩

/-- The `get` method: `return self._store.get(key)`.  Python `dict.get`
returns `None` on a miss, so a miss is modelled by `Value.vNone`. -/
def InMemoryCachePolicy.get (c : InMemoryCachePolicy) (key : String) : Value :=
  (alistGet c.store key).getD Value.vNone

/-- The `set` method: `self._store[key] = value`. -/
def InMemoryCachePolicy.set (c : InMemoryCachePolicy) (key : String)
    (value : Value) : InMemoryCachePolicy :=
  ⟨alistSet c.store key value⟩

/-! ## SimpleRetryPolicy (`MCPServer.py` lines 73-98) -/

/-- Configuration of `SimpleRetryPolicy` (`retries=3`, `delay=1.0` are the
Python defaults). -/
structure SimpleRetryPolicy where
  retries : Nat
  delay : Rat
deriving DecidableEq, Repr

/-- The `ToolExecutionError` raised after retry exhaustion, with the
`from last_exc` cause (`none` models `raise ... from None`). -/
structure RetryFail (E : Type) where
  msg : String
  cause : Option E
deriving DecidableEq, Repr

/-- Message of the exhaustion error:
`f"Tool '{tool_name}' failed after {self.retries} retries"`. -/
def retryMsg (toolName : String) (retries : Nat) : String :=
  "Tool \x27" ++ toolName ++ "\x27 failed after " ++ toString retries ++ " retries"

/-- Loop body of `SimpleRetryPolicy.run`.  `op i` is the outcome of the
`i`-th (1-based) invocation of `operation()`; the fuel counts the remaining
iterations of `for attempt in range(1, self.retries + 1)` and equals
`retries + 1 - attempt` at every call.  Returns the overall outcome, the
number of times `operation` was invoked, and the list of performed
`asyncio.sleep` durations in order. -/
def retryLoop {E A : Type} (op : Nat → Except E A) (retries : Nat) (delay : Rat)
    (toolName : String) : Nat → Nat → (Except (RetryFail E) A) × Nat × List Rat
  | _, 0 => (Except.error ⟨retryMsg toolName retries, none⟩, 0, [])
  | attempt, fuel + 1 =>
    match op attempt with
    | Except.ok v => (Except.ok v, 1, [])
    | Except.error e =>
      if attempt < retries then
        match retryLoop op retries delay toolName (attempt + 1) fuel with
        | (r, n, sleeps) => (r, n + 1, delay :: sleeps)
      else
        (Except.error ⟨retryMsg toolName retries, some e⟩, 1, [])

/-- The `run` method of `SimpleRetryPolicy`: attempts start at 1 and the
loop runs at most `retries` times; when every attempt fails the
`ToolExecutionError` carries the last captured exception as its cause
(which the `fuel = 0` base case, reached only when `retries = 0` and the
loop body never ran, renders as `none`, matching `last_exc = None`). -/
def SimpleRetryPolicy.run {E A : Type} (p : SimpleRetryPolicy)
    (op : Nat → Except E A) (toolName : String) :
    (Except (RetryFail E) A) × Nat × List Rat :=
  retryLoop op p.retries p.delay toolName 1 p.retries

/-! ## MCPServer (`MCPServer.py` lines 118-184) -/

/-- State held by an `MCPServer` instance: the tool registry (name to
`execute` coroutine), the retry-policy configuration, the cache store
(tool-result dictionaries keyed by `tool_name + hash`), the optional
external security checker, and the `self._agent_permissions` dict.
`K` is the type of the keyword-argument packs tools receive. -/
structure MCPState (K : Type) where
  registry : List (String × (K → Except PyErr Ctx))
  retry : SimpleRetryPolicy
  cache : List (String × Ctx)
  security : Option (K → Except PyErr Bool)
  permissions : List (String × List String)

/-- The `ToolRegistry.get` method: raises `ToolNotFoundError` when the name
is absent (`MCPServer.py` lines 50-53). -/
def ToolRegistry.getTool {K : Type} (tools : List (String × (K → Except PyErr Ctx)))
    (name : String) : Except PyErr (K → Except PyErr Ctx) :=
  match alistGet tools name with
  | some t => Except.ok t
  | none => Except.error (PyErr.toolNotFoundError
      ("Tool \x27" ++ name ++ "\x27 is not registered"))

/-- The `MCPServer.call` method as implemented (`MCPServer.py` lines
141-166).  The v3 server is "simplified": the body performs no cache
lookup, no permission check, no security check, no registry lookup and no
retry, it only returns a backward-compatibility stub for
`image.generate` and `compliance.check` and raises `ToolNotFoundError`
for every other tool name.  `strK` models Python `str` on a kwargs pack
and `pyHash` models the process-local `hash` function, used only to
render the stub URL.  The server state is returned unchanged. -/
def MCPServer.call {K : Type} (strK : K → String) (pyHash : String → Int)
    (st : MCPState K) (tool_name : String) (agent_name : Option String)
    (kwargs : K) : (Except PyErr Ctx) × MCPState K :=
  if tool_name == "image.generate" then
    (Except.ok [("image_url",
        Value.vStr ("stub://" ++ tool_name ++ "/" ++ toString (pyHash (strK kwargs)))),
      ("success", Value.vBool false),
      ("error", Value.vStr "Инструменты упразднены. Используйте BannerDesignerAgent напрямую")],
     st)
  else if tool_name == "compliance.check" then
    (Except.ok [("is_approved", Value.vBool true),
      ("issues", Value.vStrList
        ["Проверка через инструменты упразднена. Используйте QAComplianceAgent напрямую"]),
      ("success", Value.vBool false)],
     st)
  else
    (Except.error (PyErr.toolNotFoundError
      ("Инструмент \x27" ++ tool_name ++ "\x27 упразднен. Используйте агентов напрямую вместо вызовов через MCP.")),
     st)

/-- The `set_agent_permissions` method: plain upsert into the permission
dict (`MCPServer.py` lines 168-171). -/
def MCPServer.setAgentPermissions {K : Type} (st : MCPState K)
    (agent_name : String) (allowed_tools : List String) : MCPState K :=
  { st with permissions := alistSet st.permissions agent_name allowed_tools }

/-- The `get_agent_permissions` method: read with `[]` default
(`MCPServer.py` lines 173-175). -/
def MCPServer.getAgentPermissions {K : Type} (st : MCPState K)
    (agent_name : String) : List String :=
  (alistGet st.permissions agent_name).getD []

/-! ## BaseAgent (`agents/base_agent.py`) -/

/-- Metrics counters of the `MetricsCollector` capability as `BaseAgent`
uses it: named counters incremented by `increment(name)`. -/
abbrev Metrics := List (String × Nat)

/-- One `increment` call on a counter map. -/
def Metrics.increment (m : Metrics) (counter : String) : Metrics :=
  alistSet m counter ((alistGet m counter).getD 0 + 1)

/-- Current value of a counter. -/
def Metrics.get (m : Metrics) (counter : String) : Nat :=
  (alistGet m counter).getD 0

/-- The hook methods an agent contributes to the fixed `handle` lifecycle:
its name, the optional security capability (`self.security`), its
`validate` override and its `process` implementation. -/
structure AgentSpec where
  name : String
  security : Option (Ctx → Except PyErr Bool)
  validate : Ctx → Except PyErr Unit
  process : Ctx → Except PyErr Ctx

/-- Steps 1-3 of `BaseAgent.handle` (security check, validate, process),
the part of the `try` block whose exceptions the `except` clause observes
before the metrics bookkeeping. -/
def BaseAgent.body (a : AgentSpec) (payload : Ctx) : Except PyErr Ctx :=
  (match a.security with
   | some chk =>
     Except.bind (chk payload) (fun allowed =>
       if allowed then Except.ok () else
         Except.error (PyErr.agentError "Security policy violation"))
   | none => Except.ok ()).bind (fun _ =>
    (a.validate payload).bind (fun _ => a.process payload))

/-- The `handle` template method (`agents/base_agent.py` lines 45-80): run
the body; on success increment `{name}.success` when a metrics collector is
configured and return the result; on any exception increment
`{name}.error` when configured and re-raise the same exception. -/
def BaseAgent.handle (a : AgentSpec) (metrics : Option Metrics) (payload : Ctx) :
    (Except PyErr Ctx) × Option Metrics :=
  match BaseAgent.body a payload with
  | Except.ok r =>
    (Except.ok r, metrics.map (fun m => m.increment (a.name ++ ".success")))
  | Except.error e =>
    (Except.error e, metrics.map (fun m => m.increment (a.name ++ ".error")))

/-- Default `BaseAgent.validate`: raises `AgentError` when the payload is
not a dict.  In the embedding every `Ctx` is a dict, so only the subclass
checks below can fail; the flag records `isinstance(payload, dict)` for
callers that pass a non-dict payload. -/
def BaseAgent.validateIsDict (isDict : Bool) : Except PyErr Unit :=
  if isDict then Except.ok () else
    Except.error (PyErr.agentError "Payload must be a dict")

/-! ## Concrete agent validate hooks
(`agents/prompt_agent.py`, `agents/copywriter_agent.py`,
`agents/banner_designer_agent.py`, `agents/qa_compliance_agent.py`).
Every `Ctx` is a dict, so the inherited `super().validate(payload)` check
passes and only the subclass key checks can fail. -/

/-- Required brief fields of `PromptAgent.validate`. -/
def PromptAgent.requiredFields : List String :=
  ["product", "product_type", "audience", "goal"]

/-- The `missing` list computed by `PromptAgent.validate`. -/
def PromptAgent.missing (payload : Ctx) : List String :=
  PromptAgent.requiredFields.filter (fun f => !(pyHasKey payload f))

/-- `PromptAgent.validate` (`agents/prompt_agent.py` lines 34-41): raises
`ValueError` listing the missing brief fields. -/
def PromptAgent.validate (payload : Ctx) : Except PyErr Unit :=
  (BaseAgent.validateIsDict true).bind (fun _ =>
    let missing := PromptAgent.missing payload
    if missing.isEmpty then Except.ok ()
    else Except.error (PyErr.valueError
      ("Ошибка брифа: отсутствуют поля " ++ pyStrList missing)))

/-- `CopywriterAgent.validate` (`agents/copywriter_agent.py` lines 28-33). -/
def CopywriterAgent.validate (payload : Ctx) : Except PyErr Unit :=
  (BaseAgent.validateIsDict true).bind (fun _ =>
    if pyHasKey payload "target_text_prompt" then Except.ok ()
    else Except.error (PyErr.valueError
      "Ошибка: В контексте отсутствует \x27target_text_prompt\x27. Копирайтеру нечего писать!"))

/-- `BannerDesignerAgent.validate` (`agents/banner_designer_agent.py`
lines 186-193). -/
def BannerDesignerAgent.validate (payload : Ctx) : Except PyErr Unit :=
  (BaseAgent.validateIsDict true).bind (fun _ =>
    if pyHasKey payload "target_image_prompt" then Except.ok ()
    else Except.error (PyErr.valueError
      "[BannerDesignerAgent] Ошибка: В контексте отсутствует \x27target_image_prompt\x27"))

/-- The `missing` list computed by `QAComplianceAgent.validate`. -/
def QAComplianceAgent.missing (payload : Ctx) : List String :=
  ["final_advertising_text"].filter (fun f => !(pyHasKey payload f))

/-- `QAComplianceAgent.validate` (`agents/qa_compliance_agent.py` lines
127-137). -/
def QAComplianceAgent.validate (payload : Ctx) : Except PyErr Unit :=
  (BaseAgent.validateIsDict true).bind (fun _ =>
    let missing := QAComplianceAgent.missing payload
    if missing.isEmpty then Except.ok ()
    else Except.error (PyErr.valueError
      ("[QAComplianceAgent] Нечего проверять. Отсутствуют: " ++ pyStrList missing)))

/-- Enumeration of the four concrete agents, for claims ranging over
"every concrete agent". -/
inductive AgentId where
  | prompt | copywriter | designer | qa
deriving DecidableEq, Repr

/-- Required context keys of each agent's `validate` override. -/
def AgentId.requiredOf : AgentId → List String
  | AgentId.prompt => PromptAgent.requiredFields
  | AgentId.copywriter => ["target_text_prompt"]
  | AgentId.designer => ["target_image_prompt"]
  | AgentId.qa => ["final_advertising_text"]

/-- Dispatch to each concrete agent's `validate`. -/
def AgentId.validateOf : AgentId → Ctx → Except PyErr Unit
  | AgentId.prompt => PromptAgent.validate
  | AgentId.copywriter => CopywriterAgent.validate
  | AgentId.designer => BannerDesignerAgent.validate
  | AgentId.qa => QAComplianceAgent.validate

/-- Keys of `requiredOf` absent from a payload. -/
def AgentId.missingOf (a : AgentId) (payload : Ctx) : List String :=
  (a.requiredOf).filter (fun f => !(pyHasKey payload f))

/-! ## CopywriterAgent.process (`agents/copywriter_agent.py` lines 35-67) -/

/-- The `final_text` local of `CopywriterAgent.process`: `brokerResult` is
the outcome of the single `await self.mcp.call("text.generate",
agent_name=self.name, prompt=..., temperature=0.7)`; the `try/except`
downgrades any exception from it to the empty string. -/
def CopywriterAgent.finalText (brokerResult : Except PyErr Ctx) : Value :=
  match brokerResult with
  | Except.ok response => pyGetD response "text" (Value.vStr "")
  | Except.error _ => Value.vStr ""

/-- `CopywriterAgent.process` (`agents/copywriter_agent.py` lines 35-67):
the `try/except` part is `CopywriterAgent.finalText`; the subsequent
`len(final_text)` runs outside the `try`, so a non-sized `text` value in a
successful response raises `TypeError`; otherwise the over-limit warning
and the final text are written into the context. -/
def CopywriterAgent.process (brokerResult : Except PyErr Ctx) (context : Ctx) :
    Except PyErr Ctx :=
  let final_text : Value := CopywriterAgent.finalText brokerResult
  match pyLen final_text with
  | none => Except.error (PyErr.typeError "object has no len()")
  | some n =>
    let context :=
      if 160 < n then alistSet context "warning" (Value.vStr "Текст слишком длинный")
      else context
    Except.ok (alistSet context "final_advertising_text" final_text)

/-! ## QAComplianceAgent checks and process
(`agents/qa_compliance_agent.py`) -/

/-- Python `x.lower()` on a modelled value; `none` models the
`AttributeError` raised on a value that is not a string. -/
def pyLowerV : Value → Option String
  | Value.vStr s => some (pyLower s)
  | _ => none

/-- Profanity keywords of the default rules and of the `no_profanity`
named-rule branch. -/
def profanityWords : List String := ["сука", "блядь", "хуй", "пизда", "ебать"]

/-- Scam phrases of the default `no_scam_keywords` rule. -/
def scamPhrases : List String :=
  ["100% гарантия", "быстро разбогатеть", "легкие деньги", "без риска"]

/-- Call-to-action words of the `has_cta` named-rule branch. -/
def ctaWords : List String :=
  ["купи", "закажи", "подпишись", "узнай", "получи", "переходи", "жми"]

/-- One rule of a QA rules configuration: a dict with a `check` callable,
a dict with only a `name` (the JSON-file form), or anything else (skipped).
`name` and `error` of the callable form are optional because the code reads
them with `rule.get(..., default)`. -/
inductive Rule where
  | funRule (name : Option String) (check : Value → Option Bool) (errMsg : Option String)
  | namedRule (name : String) (maxChars : Option Nat)
  | otherRule

/-- The `lambda x: len(x) <= 160` check of the default `text_length` rule;
`none` models the `TypeError` that the per-rule `try/except` catches. -/
def textLengthCheck (x : Value) : Option Bool := (pyLen x).map (fun n => n ≤ 160)

/-- The default `no_profanity` check:
`not any(word in x.lower() for word in ...)`. -/
def noProfanityCheck (x : Value) : Option Bool :=
  (pyLowerV x).map (fun low => !(profanityWords.any (fun w => strContains low w)))

/-- The default `no_scam_keywords` check. -/
def noScamCheck (x : Value) : Option Bool :=
  (pyLowerV x).map (fun low => !(scamPhrases.any (fun w => strContains low w)))

/-- The three default rules built by `_get_default_rules` (lines 36-65). -/
def QAComplianceAgent.defaultChecks : List Rule :=
  [Rule.funRule (some "text_length") textLengthCheck
     (some "Текст слишком длинный (макс. 160 символов)"),
   Rule.funRule (some "no_profanity") noProfanityCheck
     (some "Обнаружена нецензурная лексика"),
   Rule.funRule (some "no_scam_keywords") noScamCheck
     (some "Обнаружены мошеннические фразы")]

/-- Shape of `self.rules`: not a dict at all, or a dict whose `checks` key
is absent (`none`) or holds a list of rules. -/
inductive RulesCfg where
  | notDict
  | rulesDict (checks : Option (List Rule))

/-- Issues contributed by one rule inside the `for rule in checks` loop of
`_check_text_compliance` (lines 83-110); every exception a rule raises is
caught by the per-rule `try/except` and contributes nothing. -/
def ruleIssues (rule : Rule) (text : Value) : List String :=
  match rule with
  | Rule.funRule name check errMsg =>
    match check text with
    | some true => []
    | some false =>
      [(name.getD "unnamed") ++ ": " ++ (errMsg.getD "Нарушение правила")]
    | none => []
  | Rule.namedRule rname maxChars =>
    if rname == "text_length" then
      match pyLen text with
      | some n =>
        let mx := maxChars.getD 160
        if mx < n then
          ["text_length: Текст слишком длинный (" ++ toString n ++ " > " ++
            toString mx ++ ")"]
        else []
      | none => []
    else if rname == "no_profanity" then
      match pyLowerV text with
      | some low =>
        if profanityWords.any (fun w => strContains low w) then
          ["no_profanity: Обнаружена нецензурная лексика"]
        else []
      | none => []
    else if rname == "has_cta" then
      match pyLowerV text with
      | some low =>
        if ctaWords.any (fun w => strContains low w) then []
        else ["has_cta: Отсутствует призыв к действию"]
      | none => []
    else []
  | Rule.otherRule => []

/-- `_check_text_compliance` (lines 67-112): a non-dict rules object yields
the format-error issue; an absent or empty `checks` list falls back to the
default rules; otherwise the rules are folded in order. -/
def QAComplianceAgent.checkTextCompliance (rules : RulesCfg) (text : Value) :
    List String :=
  match rules with
  | RulesCfg.notDict => ["Ошибка формата правил"]
  | RulesCfg.rulesDict checksOpt =>
    let checks := checksOpt.getD []
    let checks := if checks.isEmpty then QAComplianceAgent.defaultChecks else checks
    checks.foldl (fun issues rule => issues ++ ruleIssues rule text) []

/-- `_check_image_compliance` (lines 114-125) on a string URL. -/
def QAComplianceAgent.checkImageCompliance (image_url : String) : List String :=
  if image_url.isEmpty ||
      !(charListPre "http://".data image_url.data ||
        charListPre "https://".data image_url.data ||
        charListPre "file://".data image_url.data) then
    ["Некорректный URL изображения"]
  else []

/-- The `if banner_url:` guard plus image check inside `process`: a falsy
`banner_url` skips the check; a truthy string is checked; a truthy
non-string reaches `image_url.startswith(...)` and raises
`AttributeError`. -/
def QAComplianceAgent.bannerIssues (banner_url : Value) : Except PyErr (List String) :=
  if pyTruthy banner_url then
    match banner_url with
    | Value.vStr s => Except.ok (QAComplianceAgent.checkImageCompliance s)
    | _ => Except.error (PyErr.attributeError "object has no attribute startswith")
  else Except.ok []

/-- Steps 4-5 of `QAComplianceAgent.process`: write `qa_status`,
`qa_report`, `qa_checks_passed` and `qa_total_checks` into the context and
return it (lines 159-179; the `try/except` around the check counting cannot
fail in the embedding, so only its `try` body is modelled). -/
def QAComplianceAgent.writeVerdict (rules : RulesCfg) (context : Ctx)
    (text_issues image_issues : List String) : Ctx :=
  let all_issues := text_issues ++ image_issues
  let is_approved := all_issues.isEmpty
  let context := alistSet context "qa_status"
    (Value.vStr (if is_approved then "APPROVED" else "REJECTED"))
  let context := alistSet context "qa_report" (Value.vStrList all_issues)
  let total_checks : Nat :=
    match rules with
    | RulesCfg.rulesDict (some l) => l.length
    | _ => QAComplianceAgent.defaultChecks.length
  let context := alistSet context "qa_checks_passed"
    (Value.vInt ((total_checks : Int) - (text_issues.length : Int)))
  alistSet context "qa_total_checks" (Value.vInt (total_checks : Int))

/-- `QAComplianceAgent.process` (lines 139-188): collect the text issues
and, behind the `if banner_url:` guard, the image issues, then write the
verdict (steps 4-5, factored as `QAComplianceAgent.writeVerdict`). -/
def QAComplianceAgent.process (rules : RulesCfg) (context : Ctx) : Except PyErr Ctx :=
  let ad_text := pyGetD context "final_advertising_text" (Value.vStr "")
  let banner_url := pyGetD context "banner_url" (Value.vStr "")
  let text_issues := QAComplianceAgent.checkTextCompliance rules ad_text
  (QAComplianceAgent.bannerIssues banner_url).bind (fun image_issues =>
    Except.ok (QAComplianceAgent.writeVerdict rules context text_issues image_issues))

/-! ## Pipeline wiring (`ai_assistant/src/ai_assistant.py` lines 580-744) -/

/-- Attribute access `self.security.check(payload)` performed by
`BaseAgent.handle` when the configured capability is the `SecurityChecker`
of `ai_assistant/src/security/security_checker.py`: that class defines no
method named `check` (only `check_ad_compliance` and
`validate_image_prompt`), so the access raises `AttributeError` for every
payload. -/
def SecurityChecker.checkAccess (payload : Ctx) : Except PyErr Bool :=
  Except.error (PyErr.attributeError
    "\x27SecurityChecker\x27 object has no attribute \x27check\x27")

/-- One `context = await agents[name].handle(context)` step of
`run_advertising_pipeline`: skipped entirely when an earlier stage already
raised, otherwise the stage name is recorded as invoked and its handle runs
on the threaded context. -/
def runStage (name : String) (h : Ctx → Except PyErr Ctx) :
    (Except PyErr Ctx) × List String → (Except PyErr Ctx) × List String
  | (Except.error e, tr) => (Except.error e, tr)
  | (Except.ok c, tr) => (h c, tr ++ [name])

/-- The four-stage sequence of `run_advertising_pipeline` (lines 705-720):
architect, writer, designer, inspector, threading one context and
propagating the first exception (the surrounding `except` re-raises).
Returns the outcome together with the list of stages whose `handle` was
invoked.  The success-path projection of the final context into a result
dict (lines 726-736) is not modelled: no claim depends on it. -/
def AIAssistant.runAdvertisingPipeline
    (architect writer designer inspector : Ctx → Except PyErr Ctx)
    (context : Ctx) : (Except PyErr Ctx) × List String :=
  runStage "inspector" inspector
    (runStage "designer" designer
      (runStage "writer" writer
        (runStage "architect" architect (Except.ok context, []))))

/-! ## Fixtures and small helpers used by the verification theorems -/

/-- The exception carried by a failed computation, if any. -/
def exceptErr {A : Type} : Except PyErr A → Option PyErr
  | Except.error e => some e
  | Except.ok _ => none

/-- Discriminator for `SecurityError`. -/
def PyErr.isSecurityError : PyErr → Bool
  | PyErr.securityError _ => true
  | _ => false

/-- Discriminator for `AgentError`. -/
def PyErr.isAgentError : PyErr → Bool
  | PyErr.agentError _ => true
  | _ => false

/-- Broker state mirroring the permission table that
`tests/test_agent_permissions.py` installs before exercising `call`. -/
def testPermState : MCPState Ctx :=
  { registry := []
    retry := ⟨3, 1⟩
    cache := []
    security := none
    permissions := [("CopywriterAgent", ["text.generate"]),
                    ("BannerDesignerAgent", ["image.generate"]),
                    ("QAComplianceAgent", ["compliance.check"]),
                    ("PromptAgent", [])] }

/-- A broker state over unit kwargs with nothing registered. -/
def emptyUnitState : MCPState Unit :=
  { registry := [], retry := ⟨3, 1⟩, cache := [], security := none, permissions := [] }

/-- Concrete stand-in for Python `str` on an empty kwargs pack. -/
def unitStrK : Unit → String := fun _ => "\x7b\x7d"

/-- Concrete stand-in for the process-local `hash` function. -/
def zeroHash : String → Int := fun _ => 0

/-- An operation that fails on every invocation, used to witness the retry
exhaustion theorem. -/
def alwaysFailOp (i : Nat) : Except PyErr Unit :=
  Except.error (PyErr.otherError (toString i))

/-- A brief that is a dict but lacks the `audience` field (the failing input
of the pipeline validation claim). -/
def c4Brief : Ctx :=
  [("product", Value.vStr "Сок Солнечный"),
   ("product_type", Value.vStr "Напитки"),
   ("goal", Value.vStr "Продажи в Telegram")]

/-- The stage-1 handle exactly as `run_advertising_pipeline` wires it: a
`PromptAgent` whose security capability is the `SecurityChecker` instance
(whose `check` attribute access raises) and whose `process` is the prompt
synthesis (irrelevant here, hence a parameter). -/
def architectHandle (proc : Ctx → Except PyErr Ctx) (metrics : Option Metrics)
    (c : Ctx) : Except PyErr Ctx :=
  (BaseAgent.handle
    ⟨"PromptAgent", some SecurityChecker.checkAccess, PromptAgent.validate, proc⟩
    metrics c).1

/-- A context whose `final_advertising_text` is present and whose
`banner_url` is a truthy non-string (the failing input of the QA claim). -/
def qaBadCtx : Ctx :=
  [("final_advertising_text", Value.vStr "ok"), ("banner_url", Value.vInt 5)]

/-- A brief missing only the `audience` field, with the other three
required keys present. -/
def promptPayloadNoAudience : Ctx :=
  [("product", Value.vStr "X"), ("product_type", Value.vStr "Y"),
   ("goal", Value.vStr "Z")]

/-- An agent whose `validate` always raises, used to witness the
`BaseAgent.handle` metrics/re-raise theorem. -/
def failingValidateAgent : AgentSpec :=
  ⟨"TestAgent", none, fun _ => Except.error (PyErr.valueError "bad"),
   fun c => Except.ok c⟩

/-- A context whose advertising text passes all default checks and which
has no banner URL. -/
def qaGoodCtx : Ctx := [("final_advertising_text", Value.vStr "Купи сейчас")]

/-! ## General lemmas about the string and association-list helpers -/

theorem strAppendAssoc (a b c : String) : a ++ b ++ c = a ++ (b ++ c) :=
  String.ext (by simp [String.data_append])

theorem charListPre_append (n rest : List Char) : charListPre n (n ++ rest) = true := by
  induction n with
  | nil => rfl
  | cons a as ih => simp [charListPre, ih]

theorem charListPre_extend {n l : List Char} (r : List Char)
    (h : charListPre n l = true) : charListPre n (l ++ r) = true := by
  induction n generalizing l with
  | nil => rfl
  | cons a as ih =>
    cases l with
    | nil => exact absurd h (by simp [charListPre])
    | cons b bs =>
      simp [charListPre] at h ⊢
      exact ⟨h.1, ih h.2⟩

theorem charListSub_of_pre {n l : List Char} (h : charListPre n l = true) :
    charListSub n l = true := by
  cases l with
  | nil => simpa [charListSub] using h
  | cons c rest => simp [charListSub, h]

theorem charListSub_cons {n l : List Char} (c : Char) (h : charListSub n l = true) :
    charListSub n (c :: l) = true := by
  simp [charListSub, h]

theorem charListSub_append_left {n l : List Char} (p : List Char)
    (h : charListSub n l = true) : charListSub n (p ++ l) = true := by
  induction p with
  | nil => simpa using h
  | cons c cs ih => simpa using charListSub_cons c ih

theorem charListSub_nil_needle (l : List Char) : charListSub [] l = true := by
  cases l with
  | nil => rfl
  | cons c rest => simp [charListSub, charListPre]

theorem charListSub_append_right {n l : List Char} (r : List Char)
    (h : charListSub n l = true) : charListSub n (l ++ r) = true := by
  induction l with
  | nil =>
    have hn : n = [] := by
      cases n with
      | nil => rfl
      | cons a as => exact absurd h (by simp [charListSub, charListPre])
    subst hn
    simpa using charListSub_nil_needle r
  | cons c rest ih =>
    simp [charListSub] at h
    rcases h with h | h
    · have := charListPre_extend r h
      simp [charListSub]
      left
      simpa using this
    · simp [charListSub]
      right
      exact ih h

theorem strContains_middle (pre mid suf : String) :
    strContains (pre ++ mid ++ suf) mid = true := by
  have h1 : charListSub mid.data (mid.data ++ suf.data) = true :=
    charListSub_of_pre (charListPre_append _ _)
  have h2 := charListSub_append_left (n := mid.data) pre.data h1
  simpa [strContains, String.data_append, List.append_assoc] using h2

theorem strContains_suffix (pre mid : String) :
    strContains (pre ++ mid) mid = true := by
  have h1 : charListSub mid.data mid.data = true := by
    have := charListPre_append mid.data []
    rw [List.append_nil] at this
    exact charListSub_of_pre this
  simpa [strContains, String.data_append] using
    charListSub_append_left (n := mid.data) pre.data h1

theorem strContains_append_left {b k : String} (a : String)
    (h : strContains b k = true) : strContains (a ++ b) k = true := by
  simpa [strContains, String.data_append] using
    charListSub_append_left (n := k.data) a.data h

theorem strContains_append_right {a k : String} (b : String)
    (h : strContains a k = true) : strContains (a ++ b) k = true := by
  simpa [strContains, String.data_append] using
    charListSub_append_right (n := k.data) b.data h

theorem pyStrListCore_contains {k : String} {l : List String} (h : k ∈ l) :
    strContains (pyStrListCore l) k = true := by
  induction l with
  | nil => cases h
  | cons s rest ih =>
    cases rest with
    | nil =>
      have hk : k = s := by simpa using h
      subst hk
      exact strContains_middle "\x27" k "\x27"
    | cons t ts =>
      rcases List.mem_cons.mp h with hk | hk
      · subst hk
        show strContains ("\x27" ++ k ++ "\x27" ++ ", " ++ pyStrListCore (t :: ts)) k = true
        exact strContains_append_right _
          (strContains_append_right _ (strContains_middle "\x27" k "\x27"))
      · show strContains ("\x27" ++ s ++ "\x27" ++ ", " ++ pyStrListCore (t :: ts)) k = true
        exact strContains_append_left _ (ih hk)

theorem pyStrList_contains {k : String} {l : List String} (h : k ∈ l) :
    strContains (pyStrList l) k = true := by
  unfold pyStrList
  exact strContains_append_right _ (strContains_append_left _ (pyStrListCore_contains h))

theorem alistGet_set_same {α : Type} (d : List (String × α)) (k : String) (v : α) :
    alistGet (alistSet d k v) k = some v := by
  unfold alistSet
  by_cases h : d.any (fun kv => kv.1 == k)
  · simp only [h, if_true]
    induction d with
    | nil => simp at h
    | cons kv rest ih =>
      by_cases hk : kv.1 == k
      · simp [alistGet, List.find?, hk]
      · have hrest : rest.any (fun kv => kv.1 == k) := by
          simp [List.any_cons, hk] at h
          simpa using h
        simpa [alistGet, List.find?, hk] using ih hrest
  · simp only [h, if_false]
    induction d with
    | nil => simp [alistGet, List.find?]
    | cons kv rest ih =>
      have hk : (kv.1 == k) = false := by
        by_contra hc
        simp only [Bool.not_eq_false] at hc
        exact h (by simp [List.any_cons, hc])
      have hrest : ¬ rest.any (fun kv => kv.1 == k) := by
        intro hc
        exact h (by simp [List.any_cons, hc])
      simpa [alistGet, List.find?, hk] using ih hrest

theorem alistGet_mapset_ne {α : Type} (d : List (String × α)) (k k' : String)
    (v : α) (h : k' ≠ k) :
    alistGet (d.map (fun kv => if kv.1 == k then (k, v) else kv)) k' = alistGet d k' := by
  induction d with
  | nil => rfl
  | cons kv rest ih =>
    have hkk' : (k == k') = false := by
      simp only [beq_eq_false_iff_ne]
      exact fun hc => h hc.symm
    by_cases hk : kv.1 == k
    · have hv1 : (kv.1 == k') = false := by
        simp only [beq_iff_eq] at hk
        subst hk
        exact hkk'
      simp [alistGet, List.find?, hk, hkk', hv1] at ih ⊢
      exact ih
    · by_cases hk' : kv.1 == k'
      · simp [alistGet, List.find?, hk, hk']
      · simp [alistGet, List.find?, hk, hk'] at ih ⊢
        exact ih

theorem alistGet_append_single_ne {α : Type} (d : List (String × α))
    (k k' : String) (v : α) (h : k' ≠ k) :
    alistGet (d ++ [(k, v)]) k' = alistGet d k' := by
  induction d with
  | nil =>
    have hkk' : (k == k') = false := by
      simp only [beq_eq_false_iff_ne]
      exact fun hc => h hc.symm
    simp [alistGet, List.find?, hkk']
  | cons kv rest ih =>
    by_cases hk' : kv.1 == k'
    · simp [alistGet, List.find?, hk']
    · simp [alistGet, List.find?, hk'] at ih ⊢
      exact ih

theorem alistGet_set_ne {α : Type} (d : List (String × α)) (k k' : String)
    (v : α) (h : k' ≠ k) : alistGet (alistSet d k v) k' = alistGet d k' := by
  unfold alistSet
  by_cases hany : d.any (fun kv => kv.1 == k)
  · simpa [hany] using alistGet_mapset_ne d k k' v h
  · simpa [hany] using alistGet_append_single_ne d k k' v h

theorem pyHasKey_eq_isSome (d : Ctx) (k : String) :
    pyHasKey d k = (alistGet d k).isSome := by
  induction d with
  | nil => rfl
  | cons kv rest ih =>
    by_cases hk : kv.1 == k
    · simp [pyHasKey, alistGet, List.find?, List.any_cons, hk]
    · simp [pyHasKey, alistGet, List.find?, List.any_cons, hk] at ih ⊢
      exact ih

theorem Metrics.get_increment_same (m : Metrics) (k : String) :
    (m.increment k).get k = m.get k + 1 := by
  unfold Metrics.increment Metrics.get
  rw [alistGet_set_same]
  rfl

theorem Metrics.get_increment_ne (m : Metrics) (k k' : String) (h : k' ≠ k) :
    (m.increment k).get k' = m.get k' := by
  unfold Metrics.increment Metrics.get
  rw [alistGet_set_ne _ _ _ _ h]

theorem string_append_ne_of_length {s t u : String} (h : t.length ≠ u.length) :
    s ++ t ≠ s ++ u := by
  intro hc
  apply h
  have hd : (s ++ t).data = (s ++ u).data := by rw [hc]
  rw [String.data_append, String.data_append] at hd
  have := List.append_cancel_left hd
  exact congrArg List.length this

theorem MCPServer.call_state_unchanged {K : Type} (strK : K → String)
    (pyHash : String → Int) (st : MCPState K) (tool_name : String)
    (agent_name : Option String) (kwargs : K) :
    (MCPServer.call strK pyHash st tool_name agent_name kwargs).2 = st := by
  unfold MCPServer.call
  by_cases h1 : tool_name == "image.generate" <;>
    by_cases h2 : tool_name == "compliance.check" <;> simp [h1, h2]

theorem MCPServer.call_result_indep {K : Type} (strK : K → String)
    (pyHash : String → Int) (st st2 : MCPState K) (tool_name : String)
    (agent_name : Option String) (kwargs : K) :
    (MCPServer.call strK pyHash st tool_name agent_name kwargs).1 =
      (MCPServer.call strK pyHash st2 tool_name agent_name kwargs).1 := by
  unfold MCPServer.call
  by_cases h1 : tool_name == "image.generate" <;>
    by_cases h2 : tool_name == "compliance.check" <;> simp [h1, h2]

/-! ## Claim theorems -/

/-- C8 counterexample: after `set(k, None)` the `get` result is the very
same value as a `get` on a never-stored key, so the miss sentinel IS
ambiguous with a stored `None`, refuting the claimed distinguishability at
the concrete key `"banner"`. -/
theorem c8_stored_none_indistinguishable_from_miss :
    InMemoryCachePolicy.get (InMemoryCachePolicy.init.set "banner" Value.vNone) "banner" =
      InMemoryCachePolicy.get InMemoryCachePolicy.init "banner" := by decide

/-- C8 amended: `InMemoryCachePolicy.get` on a never-stored key returns
Python `None` (the `dict.get` default), and `get` after `set(k, None)`
returns `None` as well, for every key: absence and a stored `None` are not
distinguishable through `get`. -/
theorem c8_cache_get_miss_returns_none_ambiguous (k : String) :
    InMemoryCachePolicy.get InMemoryCachePolicy.init k = Value.vNone ∧
    InMemoryCachePolicy.get (InMemoryCachePolicy.init.set k Value.vNone) k = Value.vNone := by
  constructor
  · rfl
  · show (alistGet (alistSet [] k Value.vNone) k).getD Value.vNone = Value.vNone
    rw [alistGet_set_same]
    rfl

/-- C2 counterexample: the first `MCPServer.call` with tool name
`compliance.check` succeeds, yet the broker cache after the call is still
empty — no entry was written on success, refuting the claim that the
second call is served from the cache written by the first. -/
theorem c2_first_success_writes_no_cache_entry :
    (MCPServer.call unitStrK zeroHash emptyUnitState "compliance.check"
        (some "QAComplianceAgent") ()).1 =
      Except.ok [("is_approved", Value.vBool true),
        ("issues", Value.vStrList
          ["Проверка через инструменты упразднена. Используйте QAComplianceAgent напрямую"]),
        ("success", Value.vBool false)] ∧
    ((MCPServer.call unitStrK zeroHash emptyUnitState "compliance.check"
        (some "QAComplianceAgent") ()).2).cache = [] :=
  ⟨rfl, rfl⟩

/-- C2 amended: two sequential `MCPServer.call` invocations with identical
tool name and kwargs never invoke any tool's `execute` (the call returns
its state — registry, cache, permissions, security, retry — unchanged, so
in particular zero executions happen and nothing is written to or read
from the cache), and the second call produces the same outcome as the
first; the repetition-safety comes from the stubbed implementation, not
from a cache hit. -/
theorem c2_repeat_call_same_result_state_unchanged {K : Type} (strK : K → String)
    (pyHash : String → Int) (st : MCPState K) (tool_name : String)
    (agent_name : Option String) (kwargs : K) :
    (MCPServer.call strK pyHash
        ((MCPServer.call strK pyHash st tool_name agent_name kwargs).2)
        tool_name agent_name kwargs).1 =
      (MCPServer.call strK pyHash st tool_name agent_name kwargs).1 ∧
    (MCPServer.call strK pyHash st tool_name agent_name kwargs).2 = st ∧
    (MCPServer.call strK pyHash
        ((MCPServer.call strK pyHash st tool_name agent_name kwargs).2)
        tool_name agent_name kwargs).2 = st := by
  refine ⟨MCPServer.call_result_indep _ _ _ _ _ _ _, 
    MCPServer.call_state_unchanged _ _ _ _ _ _, ?_⟩
  rw [MCPServer.call_state_unchanged, MCPServer.call_state_unchanged]

/-- C1 evaluation at the failing input: with the permission table of
`tests/test_agent_permissions.py`, where `CopywriterAgent` may only use
`text.generate`, the call `call("image.generate",
agent_name="CopywriterAgent", prompt="test")` does not raise
`SecurityError` — it returns the stub dict and leaves the state (hence any
would-be execution) untouched; and a call to the unregistered
`text.generate` by `BannerDesignerAgent` raises `ToolNotFoundError`, again
not `SecurityError`. -/
theorem c1_unpermitted_call_returns_stub_not_security_error
    (strK : Ctx → String) (pyHash : String → Int) :
    (MCPServer.getAgentPermissions testPermState "CopywriterAgent").contains
      "image.generate" = false ∧
    (MCPServer.call strK pyHash testPermState "image.generate"
        (some "CopywriterAgent") [("prompt", Value.vStr "test")]).1 =
      Except.ok [("image_url", Value.vStr ("stub://image.generate/" ++
          toString (pyHash (strK [("prompt", Value.vStr "test")])))),
        ("success", Value.vBool false),
        ("error", Value.vStr "Инструменты упразднены. Используйте BannerDesignerAgent напрямую")] ∧
    (MCPServer.call strK pyHash testPermState "image.generate"
        (some "CopywriterAgent") [("prompt", Value.vStr "test")]).2 = testPermState ∧
    (exceptErr (MCPServer.call strK pyHash testPermState "text.generate"
        (some "BannerDesignerAgent") [("prompt", Value.vStr "test")]).1).map
      PyErr.isSecurityError = some false := by
  exact ⟨by decide, rfl, rfl, rfl⟩

/-- C10: for every broker state, caller identity (including `none` and
agents with empty permission sets) and kwargs, `call` on
`compliance.check` returns a dict whose `is_approved` field is `True`; the
outcome does not depend on the state (registry, cache, permissions,
security checker, retry policy may all vary) and the state is returned
unchanged; and `call` on any tool name other than `compliance.check` and
`image.generate` raises `ToolNotFoundError` for every caller. -/
theorem c10_compliance_stub_and_tool_not_found {K : Type} (strK : K → String)
    (pyHash : String → Int) (st st2 : MCPState K) (agent_name : Option String)
    (kwargs : K) (tool_name : String)
    (h1 : tool_name ≠ "compliance.check") (h2 : tool_name ≠ "image.generate") :
    (∃ d, (MCPServer.call strK pyHash st "compliance.check" agent_name kwargs).1 =
        Except.ok d ∧ alistGet d "is_approved" = some (Value.vBool true)) ∧
    (MCPServer.call strK pyHash st "compliance.check" agent_name kwargs).2 = st ∧
    (MCPServer.call strK pyHash st "compliance.check" agent_name kwargs).1 =
      (MCPServer.call strK pyHash st2 "compliance.check" agent_name kwargs).1 ∧
    (MCPServer.call strK pyHash st tool_name agent_name kwargs).1 =
      Except.error (PyErr.toolNotFoundError
        ("Инструмент \x27" ++ tool_name ++ "\x27 упразднен. Используйте агентов напрямую вместо вызовов через MCP.")) := by
  refine ⟨⟨_, rfl, rfl⟩, MCPServer.call_state_unchanged _ _ _ _ _ _,
    MCPServer.call_result_indep _ _ _ _ _ _ _, ?_⟩
  unfold MCPServer.call
  have e1 : (tool_name == "image.generate") = false := beq_eq_false_iff_ne.mpr h2
  have e2 : (tool_name == "compliance.check") = false := beq_eq_false_iff_ne.mpr h1
  simp [e1, e2]

/-- C10 witness at tool name `text.generate`, the empty unit-kwargs broker
state and an anonymous caller. -/
theorem c10_compliance_stub_and_tool_not_found_witness :
    (("text.generate" : String) ≠ "compliance.check" ∧
      ("text.generate" : String) ≠ "image.generate") ∧
    ((∃ d, (MCPServer.call unitStrK zeroHash emptyUnitState "compliance.check" none ()).1 =
        Except.ok d ∧ alistGet d "is_approved" = some (Value.vBool true)) ∧
    (MCPServer.call unitStrK zeroHash emptyUnitState "compliance.check" none ()).2 =
      emptyUnitState ∧
    (MCPServer.call unitStrK zeroHash emptyUnitState "compliance.check" none ()).1 =
      (MCPServer.call unitStrK zeroHash emptyUnitState "compliance.check" none ()).1 ∧
    (MCPServer.call unitStrK zeroHash emptyUnitState "text.generate" none ()).1 =
      Except.error (PyErr.toolNotFoundError
        ("Инструмент \x27" ++ "text.generate" ++ "\x27 упразднен. Используйте агентов напрямую вместо вызовов через MCP."))) :=
  ⟨⟨by decide, by decide⟩,
    c10_compliance_stub_and_tool_not_found unitStrK zeroHash emptyUnitState
      emptyUnitState none () "text.generate" (by decide) (by decide)⟩

/-- C4 evaluation at the failing input: with the wiring of
`run_advertising_pipeline` (stage 1 is a `PromptAgent`, whose configured
security capability is the `SecurityChecker` instance), a brief that lacks
only `audience` makes the pipeline abort during stage 1 — the writer,
designer and inspector handles are never invoked — but with an
`AttributeError` from the `self.security.check` access that does not
mention the missing field, not with the validation error; the validation
error that `PromptAgent.validate` would raise does name `audience`.  This
holds for every stage-1 `process`, every metrics configuration and every
choice of the later stage handles. -/
theorem c4_pipeline_missing_audience_aborts_stage1
    (proc writer designer inspector : Ctx → Except PyErr Ctx)
    (metrics : Option Metrics) :
    AIAssistant.runAdvertisingPipeline (architectHandle proc metrics)
        writer designer inspector c4Brief =
      (Except.error (PyErr.attributeError
        "\x27SecurityChecker\x27 object has no attribute \x27check\x27"), ["architect"]) ∧
    strContains "\x27SecurityChecker\x27 object has no attribute \x27check\x27"
      "audience" = false ∧
    PromptAgent.missing c4Brief = ["audience"] ∧
    PromptAgent.validate c4Brief = Except.error (PyErr.valueError
      "Ошибка брифа: отсутствуют поля [\x27audience\x27]") ∧
    strContains "Ошибка брифа: отсутствуют поля [\x27audience\x27]" "audience" = true := by
  refine ⟨rfl, by decide, by decide, rfl, by decide⟩

/-- C7 counterexample: a dict brief missing only `audience` makes
`PromptAgent.validate` raise `ValueError` (whose message does name the
missing key), not `AgentError` as the claim states. -/
theorem c7_missing_key_raises_value_error_not_agent_error :
    PromptAgent.validate promptPayloadNoAudience =
      Except.error (PyErr.valueError "Ошибка брифа: отсутствуют поля [\x27audience\x27]") ∧
    (exceptErr (PromptAgent.validate promptPayloadNoAudience)).map PyErr.isAgentError =
      some false := by
  exact ⟨rfl, by decide⟩

/-- C7 amended: for every concrete agent and every dict payload missing at
least one of that agent's required keys, `validate` raises `ValueError`
(not `AgentError`, which is reserved for the non-dict payload case and the
security rejection in `BaseAgent`) with a message naming every missing
key. -/
theorem c7_validate_missing_keys_value_error (a : AgentId) (payload : Ctx)
    (h : a.missingOf payload ≠ []) :
    ∃ m, a.validateOf payload = Except.error (PyErr.valueError m) ∧
      ∀ k ∈ a.missingOf payload, strContains m k = true := by
  cases a with
  | prompt =>
    have hne : (PromptAgent.missing payload).isEmpty = false := by
      rw [List.isEmpty_eq_false]
      exact h
    refine ⟨"Ошибка брифа: отсутствуют поля " ++ pyStrList (PromptAgent.missing payload),
      ?_, ?_⟩
    · show PromptAgent.validate payload = _
      unfold PromptAgent.validate BaseAgent.validateIsDict
      simp [hne, Except.bind]
    · intro k hk
      exact strContains_append_left _ (pyStrList_contains hk)
  | copywriter =>
    have hkey : pyHasKey payload "target_text_prompt" = false := by
      by_contra hc
      rw [Bool.not_eq_false] at hc
      apply h
      simp [AgentId.missingOf, AgentId.requiredOf, hc]
    refine ⟨"Ошибка: В контексте отсутствует \x27target_text_prompt\x27. Копирайтеру нечего писать!",
      ?_, ?_⟩
    · show CopywriterAgent.validate payload = _
      unfold CopywriterAgent.validate BaseAgent.validateIsDict
      simp [hkey, Except.bind]
    · intro k hk
      have hkk : k = "target_text_prompt" := by
        simpa [AgentId.missingOf, AgentId.requiredOf, hkey] using hk
      subst hkk
      decide
  | designer =>
    have hkey : pyHasKey payload "target_image_prompt" = false := by
      by_contra hc
      rw [Bool.not_eq_false] at hc
      apply h
      simp [AgentId.missingOf, AgentId.requiredOf, hc]
    refine ⟨"[BannerDesignerAgent] Ошибка: В контексте отсутствует \x27target_image_prompt\x27",
      ?_, ?_⟩
    · show BannerDesignerAgent.validate payload = _
      unfold BannerDesignerAgent.validate BaseAgent.validateIsDict
      simp [hkey, Except.bind]
    · intro k hk
      have hkk : k = "target_image_prompt" := by
        simpa [AgentId.missingOf, AgentId.requiredOf, hkey] using hk
      subst hkk
      decide
  | qa =>
    have hne : (QAComplianceAgent.missing payload).isEmpty = false := by
      rw [List.isEmpty_eq_false]
      exact h
    refine ⟨"[QAComplianceAgent] Нечего проверять. Отсутствуют: " ++
      pyStrList (QAComplianceAgent.missing payload), ?_, ?_⟩
    · show QAComplianceAgent.validate payload = _
      unfold QAComplianceAgent.validate BaseAgent.validateIsDict
      simp [hne, Except.bind]
    · intro k hk
      exact strContains_append_left _ (pyStrList_contains hk)

/-- C7 witness: the empty brief is missing every `PromptAgent` field and
`validate` rejects it with a `ValueError` naming all four. -/
theorem c7_validate_missing_keys_value_error_witness :
    AgentId.missingOf AgentId.prompt [] ≠ [] ∧
    (∃ m, AgentId.validateOf AgentId.prompt [] = Except.error (PyErr.valueError m) ∧
      ∀ k ∈ AgentId.missingOf AgentId.prompt [], strContains m k = true) :=
  ⟨by decide, c7_validate_missing_keys_value_error AgentId.prompt [] (by decide)⟩

theorem retryLoop_succ {E A : Type} (op : Nat → Except E A) (retries : Nat)
    (delay : Rat) (toolName : String) (attempt fuel : Nat) :
    retryLoop op retries delay toolName attempt (fuel + 1) =
      (match op attempt with
       | Except.ok v => (Except.ok v, 1, [])
       | Except.error e =>
         if attempt < retries then
           match retryLoop op retries delay toolName (attempt + 1) fuel with
           | (r, n, sleeps) => (r, n + 1, delay :: sleeps)
         else
           (Except.error ⟨retryMsg toolName retries, some e⟩, 1, [])) := rfl

theorem retryLoop_succ_err {E A : Type} (op : Nat → Except E A) (retries : Nat)
    (delay : Rat) (toolName : String) (attempt fuel : Nat) (e : E)
    (he : op attempt = Except.error e) :
    retryLoop op retries delay toolName attempt (fuel + 1) =
      (if attempt < retries then
        match retryLoop op retries delay toolName (attempt + 1) fuel with
        | (r, n, sleeps) => (r, n + 1, delay :: sleeps)
      else
        (Except.error ⟨retryMsg toolName retries, some e⟩, 1, [])) := by
  rw [retryLoop_succ, he]

theorem retryLoop_all_fail {E A : Type} (op : Nat → Except E A) (errOf : Nat → E)
    (hop : ∀ i, op i = Except.error (errOf i)) (retries : Nat) (delay : Rat)
    (toolName : String) :
    ∀ fuel attempt, 1 ≤ fuel → attempt + fuel = retries + 1 →
      retryLoop op retries delay toolName attempt fuel =
        (Except.error ⟨retryMsg toolName retries, some (errOf retries)⟩, fuel,
          List.replicate (fuel - 1) delay) := by
  intro fuel
  induction fuel with
  | zero =>
    intro attempt hf ha
    exact absurd hf (by omega)
  | succ f ih =>
    intro attempt hf ha
    cases f with
    | zero =>
      have hat : attempt = retries := by omega
      have hlt : ¬ (attempt < retries) := by omega
      rw [retryLoop_succ_err op retries delay toolName attempt 0 (errOf attempt)
        (hop attempt), if_neg hlt, hat]
      rfl
    | succ g =>
      have hlt : attempt < retries := by omega
      have ih2 := ih (attempt + 1) (by omega) (by omega)
      rw [retryLoop_succ_err op retries delay toolName attempt (g + 1)
        (errOf attempt) (hop attempt), if_pos hlt, ih2]
      rfl

/-- C3: an operation that fails on every invocation makes
`SimpleRetryPolicy(retries=n, delay=d).run(operation, tool_name=t)` invoke
the operation exactly `n` times (`n ≥ 1`), perform exactly `n - 1` sleeps
of `d` seconds each (between consecutive attempts, none after the last),
and raise `ToolExecutionError` whose cause is the exception of the last
(`n`-th) attempt and whose message contains both `t` and the retry count
`n`. -/
theorem c3_retry_exhaustion {E A : Type} (p : SimpleRetryPolicy)
    (op : Nat → Except E A) (errOf : Nat → E) (toolName : String)
    (hn : 1 ≤ p.retries) (hop : ∀ i, op i = Except.error (errOf i)) :
    p.run op toolName =
      (Except.error ⟨retryMsg toolName p.retries, some (errOf p.retries)⟩, p.retries,
        List.replicate (p.retries - 1) p.delay) ∧
    strContains (retryMsg toolName p.retries) toolName = true ∧
    strContains (retryMsg toolName p.retries) (toString p.retries) = true := by
  refine ⟨?_, ?_, ?_⟩
  · unfold SimpleRetryPolicy.run
    exact retryLoop_all_fail op errOf hop p.retries p.delay toolName p.retries 1 hn
      (by omega)
  · unfold retryMsg
    exact strContains_append_right _ (strContains_append_right _
      (strContains_append_right _ (strContains_suffix _ _)))
  · unfold retryMsg
    exact strContains_append_right _ (strContains_suffix _ _)

/-- C3 witness at `retries = 3`, `delay = 1`, tool `text.generate` and an
operation failing on every attempt: exactly 3 invocations, sleeps `[1, 1]`,
and the exhaustion error caused by the attempt-3 exception. -/
theorem c3_retry_exhaustion_witness :
    1 ≤ (3 : Nat) ∧
    (∀ i, alwaysFailOp i = Except.error (PyErr.otherError (toString i))) ∧
    (SimpleRetryPolicy.run ⟨3, 1⟩ alwaysFailOp "text.generate" =
      (Except.error ⟨retryMsg "text.generate" 3, some (PyErr.otherError (toString 3))⟩,
        3, List.replicate 2 1) ∧
     strContains (retryMsg "text.generate" 3) "text.generate" = true ∧
     strContains (retryMsg "text.generate" 3) (toString 3) = true) :=
  ⟨by decide, fun i => rfl,
    c3_retry_exhaustion ⟨3, 1⟩ alwaysFailOp (fun i => PyErr.otherError (toString i))
      "text.generate" (by decide) (fun i => rfl)⟩

/-- C9: for every agent, payload and configured metrics collector, when any
exception `e` escapes the security-check/validate/process body of
`BaseAgent.handle`, the handle re-raises exactly that exception and
increments the `{name}.error` counter exactly once, leaving the
`{name}.success` counter untouched; and when the body succeeds, the handle
returns its result and increments only the `{name}.success` counter. -/
theorem c9_handle_metrics_and_reraise (a : AgentSpec) (m : Metrics) (payload : Ctx) :
    (∀ e, BaseAgent.body a payload = Except.error e →
      BaseAgent.handle a (some m) payload =
        (Except.error e, some (m.increment (a.name ++ ".error"))) ∧
      (m.increment (a.name ++ ".error")).get (a.name ++ ".error") =
        m.get (a.name ++ ".error") + 1 ∧
      (m.increment (a.name ++ ".error")).get (a.name ++ ".success") =
        m.get (a.name ++ ".success")) ∧
    (∀ r, BaseAgent.body a payload = Except.ok r →
      BaseAgent.handle a (some m) payload =
        (Except.ok r, some (m.increment (a.name ++ ".success"))) ∧
      (m.increment (a.name ++ ".success")).get (a.name ++ ".error") =
        m.get (a.name ++ ".error")) := by
  constructor
  · intro e he
    refine ⟨?_, Metrics.get_increment_same m _, Metrics.get_increment_ne m _ _ ?_⟩
    · unfold BaseAgent.handle
      rw [he]
      rfl
    · exact string_append_ne_of_length (by decide)
  · intro r hr
    refine ⟨?_, Metrics.get_increment_ne m _ _ ?_⟩
    · unfold BaseAgent.handle
      rw [hr]
      rfl
    · exact string_append_ne_of_length (by decide)

/-- C9 witness: an agent whose `validate` raises `ValueError` re-raises it
unchanged from `handle` and bumps only `TestAgent.error` on an initially
empty counter map. -/
theorem c9_handle_metrics_and_reraise_witness :
    BaseAgent.body failingValidateAgent [] = Except.error (PyErr.valueError "bad") ∧
    (BaseAgent.handle failingValidateAgent (some []) [] =
      (Except.error (PyErr.valueError "bad"),
        some (Metrics.increment [] ("TestAgent" ++ ".error"))) ∧
     (Metrics.increment [] ("TestAgent" ++ ".error")).get ("TestAgent" ++ ".error") =
       Metrics.get [] ("TestAgent" ++ ".error") + 1 ∧
     (Metrics.increment [] ("TestAgent" ++ ".error")).get ("TestAgent" ++ ".success") =
       Metrics.get [] ("TestAgent" ++ ".success")) :=
  ⟨rfl, (c9_handle_metrics_and_reraise failingValidateAgent [] []).1
    (PyErr.valueError "bad") rfl⟩

/-- C6: for every broker-call outcome whose successful response carries a
string `text` (in this repository the broker always raises for
`text.generate`, so the error side is the live one) and every context
holding `target_text_prompt`, `CopywriterAgent.process` completes without
raising and always writes `final_advertising_text`: the broker text on
success, the empty string when the broker call raised; the over-limit
warning is written exactly when the resulting text exceeds 160 characters
(and an over-limit text does not make `process` fail). -/
theorem c6_copywriter_downgrade (brokerResult : Except PyErr Ctx) (context : Ctx)
    (s : String)
    (hctx : pyHasKey context "target_text_prompt" = true)
    (hs : CopywriterAgent.finalText brokerResult = Value.vStr s) :
    ∃ ctx2, CopywriterAgent.process brokerResult context = Except.ok ctx2 ∧
      alistGet ctx2 "final_advertising_text" = some (Value.vStr s) ∧
      (∀ e, brokerResult = Except.error e → s = "") ∧
      alistGet ctx2 "warning" =
        (if 160 < s.length then some (Value.vStr "Текст слишком длинный")
         else alistGet context "warning") ∧
      (pyHasKey context "warning" = false →
        (pyHasKey ctx2 "warning" = true ↔ 160 < s.length)) := by
  refine ⟨alistSet
      (if 160 < s.length then
        alistSet context "warning" (Value.vStr "Текст слишком длинный")
      else context)
      "final_advertising_text" (Value.vStr s), ?_, ?_, ?_, ?_, ?_⟩
  case refine_1 =>
    unfold CopywriterAgent.process
    rw [hs]
    rfl
  case refine_2 =>
    rw [alistGet_set_same]
  case refine_3 =>
    intro e he
    rw [he] at hs
    simpa [CopywriterAgent.finalText] using hs.symm
  case refine_4 =>
    rw [alistGet_set_ne _ _ _ _ (by decide)]
    by_cases h160 : 160 < s.length
    · rw [if_pos h160, if_pos h160, alistGet_set_same]
    · rw [if_neg h160, if_neg h160]
  case refine_5 =>
    intro hw
    rw [pyHasKey_eq_isSome, alistGet_set_ne _ _ _ _ (by decide)]
    by_cases h160 : 160 < s.length
    · rw [if_pos h160, alistGet_set_same]
      simp [h160]
    · rw [if_neg h160]
      rw [pyHasKey_eq_isSome] at hw
      simp [hw, h160]

/-- C6 witness: with the repository broker outcome for `text.generate`
(`ToolNotFoundError`), `process` returns the context with an empty
`final_advertising_text` and no warning. -/
theorem c6_copywriter_downgrade_witness :
    pyHasKey [("target_text_prompt", Value.vStr "p")] "target_text_prompt" = true ∧
    CopywriterAgent.finalText (Except.error (PyErr.toolNotFoundError "x")) =
      Value.vStr "" ∧
    (∃ ctx2, CopywriterAgent.process (Except.error (PyErr.toolNotFoundError "x"))
        [("target_text_prompt", Value.vStr "p")] = Except.ok ctx2 ∧
      alistGet ctx2 "final_advertising_text" = some (Value.vStr "") ∧
      (∀ e, (Except.error (PyErr.toolNotFoundError "x") : Except PyErr Ctx) =
        Except.error e → "" = "") ∧
      alistGet ctx2 "warning" =
        (if 160 < "".length then some (Value.vStr "Текст слишком длинный")
         else alistGet [("target_text_prompt", Value.vStr "p")] "warning") ∧
      (pyHasKey [("target_text_prompt", Value.vStr "p")] "warning" = false →
        (pyHasKey ctx2 "warning" = true ↔ 160 < "".length))) :=
  ⟨rfl, rfl, c6_copywriter_downgrade (Except.error (PyErr.toolNotFoundError "x"))
    [("target_text_prompt", Value.vStr "p")] "" rfl rfl⟩

/-- C5 counterexample: a context that contains `final_advertising_text`
but whose `banner_url` is the truthy non-string `5` makes
`QAComplianceAgent.process` raise `AttributeError` (the code calls
`image_url.startswith(...)` on it), refuting the claim that `process`
never raises. -/
theorem c5_nonstring_banner_url_raises :
    QAComplianceAgent.process (RulesCfg.rulesDict none) qaBadCtx =
      Except.error (PyErr.attributeError "object has no attribute startswith") := rfl

/-- C5 amended: for every rules configuration and every context containing
`final_advertising_text` whose `banner_url` (when present and truthy) is a
string, `process` completes without raising and returns the context with
`qa_status` set to `APPROVED` when the collected issue list — the text
checks plus, for a truthy (non-empty) `banner_url`, the image checks — is
empty and `REJECTED` otherwise, and with `qa_report` equal to exactly that
issue list.  A truthy non-string `banner_url` instead raises
`AttributeError` (see the counterexample), which is the one correction to
the claim. -/
theorem c5_qa_process_verdict (rules : RulesCfg) (context : Ctx)
    (hkey : pyHasKey context "final_advertising_text" = true)
    (hbanner : (∃ s, pyGetD context "banner_url" (Value.vStr "") = Value.vStr s) ∨
      pyTruthy (pyGetD context "banner_url" (Value.vStr "")) = false) :
    ∃ image_issues,
      QAComplianceAgent.bannerIssues (pyGetD context "banner_url" (Value.vStr "")) =
        Except.ok image_issues ∧
      (pyTruthy (pyGetD context "banner_url" (Value.vStr "")) = false →
        image_issues = []) ∧
      QAComplianceAgent.process rules context =
        Except.ok (QAComplianceAgent.writeVerdict rules context
          (QAComplianceAgent.checkTextCompliance rules
            (pyGetD context "final_advertising_text" (Value.vStr "")))
          image_issues) ∧
      alistGet (QAComplianceAgent.writeVerdict rules context
          (QAComplianceAgent.checkTextCompliance rules
            (pyGetD context "final_advertising_text" (Value.vStr "")))
          image_issues) "qa_status" =
        some (Value.vStr
          (if (QAComplianceAgent.checkTextCompliance rules
              (pyGetD context "final_advertising_text" (Value.vStr "")) ++
              image_issues).isEmpty
           then "APPROVED" else "REJECTED")) ∧
      alistGet (QAComplianceAgent.writeVerdict rules context
          (QAComplianceAgent.checkTextCompliance rules
            (pyGetD context "final_advertising_text" (Value.vStr "")))
          image_issues) "qa_report" =
        some (Value.vStrList
          (QAComplianceAgent.checkTextCompliance rules
            (pyGetD context "final_advertising_text" (Value.vStr "")) ++
            image_issues)) := by
  obtain ⟨ii, hok⟩ : ∃ ii,
      QAComplianceAgent.bannerIssues (pyGetD context "banner_url" (Value.vStr "")) =
        Except.ok ii := by
    rcases hbanner with ⟨s, hsv⟩ | hfalse
    · rw [hsv]
      unfold QAComplianceAgent.bannerIssues
      by_cases ht : pyTruthy (Value.vStr s) = true
      · rw [if_pos ht]
        exact ⟨_, rfl⟩
      · rw [if_neg ht]
        exact ⟨[], rfl⟩
    · unfold QAComplianceAgent.bannerIssues
      rw [if_neg (by simp [hfalse])]
      exact ⟨[], rfl⟩
  refine ⟨ii, hok, ?_, ?_, ?_, ?_⟩
  · intro hf
    have h2 := hok
    unfold QAComplianceAgent.bannerIssues at h2
    rw [if_neg (by simp [hf])] at h2
    simpa using h2.symm
  · unfold QAComplianceAgent.process
    dsimp only
    rw [hok]
    rfl
  · unfold QAComplianceAgent.writeVerdict
    rw [alistGet_set_ne _ _ _ _ (by decide), alistGet_set_ne _ _ _ _ (by decide),
      alistGet_set_ne _ _ _ _ (by decide), alistGet_set_same]
  · unfold QAComplianceAgent.writeVerdict
    rw [alistGet_set_ne _ _ _ _ (by decide), alistGet_set_ne _ _ _ _ (by decide),
      alistGet_set_same]

/-- C5 witness: a compliant text with no banner yields an `APPROVED`
verdict with an empty report. -/
theorem c5_qa_process_verdict_witness :
    pyHasKey qaGoodCtx "final_advertising_text" = true ∧
    ((∃ s, pyGetD qaGoodCtx "banner_url" (Value.vStr "") = Value.vStr s) ∨
      pyTruthy (pyGetD qaGoodCtx "banner_url" (Value.vStr "")) = false) ∧
    (∃ image_issues,
      QAComplianceAgent.bannerIssues (pyGetD qaGoodCtx "banner_url" (Value.vStr "")) =
        Except.ok image_issues ∧
      (pyTruthy (pyGetD qaGoodCtx "banner_url" (Value.vStr "")) = false →
        image_issues = []) ∧
      QAComplianceAgent.process (RulesCfg.rulesDict none) qaGoodCtx =
        Except.ok (QAComplianceAgent.writeVerdict (RulesCfg.rulesDict none) qaGoodCtx
          (QAComplianceAgent.checkTextCompliance (RulesCfg.rulesDict none)
            (pyGetD qaGoodCtx "final_advertising_text" (Value.vStr "")))
          image_issues) ∧
      alistGet (QAComplianceAgent.writeVerdict (RulesCfg.rulesDict none) qaGoodCtx
          (QAComplianceAgent.checkTextCompliance (RulesCfg.rulesDict none)
            (pyGetD qaGoodCtx "final_advertising_text" (Value.vStr "")))
          image_issues) "qa_status" =
        some (Value.vStr
          (if (QAComplianceAgent.checkTextCompliance (RulesCfg.rulesDict none)
              (pyGetD qaGoodCtx "final_advertising_text" (Value.vStr "")) ++
              image_issues).isEmpty
           then "APPROVED" else "REJECTED")) ∧
      alistGet (QAComplianceAgent.writeVerdict (RulesCfg.rulesDict none) qaGoodCtx
          (QAComplianceAgent.checkTextCompliance (RulesCfg.rulesDict none)
            (pyGetD qaGoodCtx "final_advertising_text" (Value.vStr "")))
          image_issues) "qa_report" =
        some (Value.vStrList
          (QAComplianceAgent.checkTextCompliance (RulesCfg.rulesDict none)
            (pyGetD qaGoodCtx "final_advertising_text" (Value.vStr "")) ++
            image_issues))) :=
  ⟨rfl, Or.inr rfl,
    c5_qa_process_verdict (RulesCfg.rulesDict none) qaGoodCtx rfl (Or.inr rfl)⟩
